import Mathlib

/-
Shallow embedding of bld.go: the per-(model, target) repair loop
(`makeTargetBuild`), its helpers (`sanitizePath`, `ensureBuildBazelExists`,
`gitStashAll`, the branch/worktree ensure functions) and the model x target
orchestration in `main`.  External processes (bazel query/build, aider, git)
are modelled by an environment of outcomes; the file system and git state are
explicit; the results carry the ordered list of external invocations (events)
so that counting and ordering claims can be stated.
-/

namespace Bld

/-- The configured model list (`models` in bld.go). -/
def models : List String :=
  [ "anthropic/claude-sonnet-4",
    "google/gemini-2.5-flash",
    "openai/gpt-4.1-mini",
    "google/gemini-2.5-pro",
    "openai/gpt-5",
    "qwen/qwen3-coder",
    "openrouter/sonoma-sky-alpha",
    "deepseek/deepseek-chat-v3.1",
    "x-ai/grok-code-fast-1",
    "x-ai/grok-4" ]

/-- The configured target list (`targets` in bld.go). -/
def targets : List String :=
  [ "//crates/matcher:grep_matcher",
    "//crates/matcher:integration_test",
    "//crates/globset:globset",
    "//crates/cli:grep_cli",
    "//crates/regex:grep_regex",
    "//crates/searcher:grep_searcher",
    "//crates/pcre2:grep_pcre2",
    "//crates/ignore:ignore",
    "//crates/printer:grep_printer",
    "//crates/grep:grep",
    "//:ripgrep",
    "//:integration_test" ]

/-- One character step of `sanitizePath`: bld.go applies
`strings.ReplaceAll(s, "/", "-")` then `ReplaceAll(s, ":", "-")`; for
single-character patterns this is exactly a character map. -/
def sanitizeChar (c : Char) : Char :=
  if c = '/' then '-' else if c = ':' then '-' else c

/-- `sanitizePath` from bld.go: replace "/" and ":" with "-". -/
def sanitizePath (s : String) : String :=
  String.mk (s.data.map sanitizeChar)

/-- The sanitized branch-name suffix main derives for a model:
`sanitizePath("openrouter/" + model)`. -/
def branchSuffix (model : String) : String :=
  sanitizePath ("openrouter/" ++ model)

/-- The per-model branch name main derives: `branch + "-" + sanitizedModelName`. -/
def modelBranch (branch model : String) : String :=
  branch ++ "-" ++ branchSuffix model

/-- The per-model worktree path main derives:
`filepath.Join(homeDir, "worktree", modelBranch)`; modelled with explicit "/"
separators (homeDir assumed non-empty and without a trailing slash). -/
def worktreeDir (homeDir branch model : String) : String :=
  homeDir ++ "/worktree/" ++ modelBranch branch model

/-- A file system: association list from paths to file contents.  I/O failures
(stat errors other than not-exist, mkdir/write failures) are not modelled. -/
abbrev FS : Type := List (String × String)

/-- `strings.HasPrefix(target, "//")` from `ensureBuildBazelExists`. -/
def isSlashSlashTarget (t : String) : Bool :=
  match t.data with
  | '/' :: '/' :: _ => true
  | _ => false

/-- The package path `ensureBuildBazelExists` parses out of a "//" target:
trim the leading "//", then cut at the first ':' (`strings.Index`); when there
is no ':' the whole remainder is the package. -/
def targetPkg (t : String) : String :=
  String.mk ((t.data.drop 2).takeWhile (fun c => c ≠ ':'))

/-- `filepath.Join(worktreePath, pkgPath, "BUILD.bazel")`: empty components are
dropped by Join. -/
def buildBazelPath (wp t : String) : String :=
  if targetPkg t = "" then wp ++ "/BUILD.bazel"
  else wp ++ "/" ++ targetPkg t ++ "/BUILD.bazel"

/-- The placeholder contents bld.go writes into a missing BUILD.bazel. -/
def placeholderContent : String := "# created by bld.go\n"

/-- `ensureBuildBazelExists` from bld.go: for a target that does not start with
"//" do nothing; otherwise, when no file exists at the package's BUILD.bazel
path, create it (directory creation is implicit in the association-list file
system) holding the placeholder contents. -/
def ensureBuildBazelExists (fs : FS) (wp t : String) : FS :=
  if isSlashSlashTarget t = false then fs
  else
    let bp := buildBazelPath wp t
    match List.lookup bp fs with
    | some _ => fs
    | none => (bp, placeholderContent) :: fs

/-- Exit status and combined output of one `git stash push -u -m msg`
invocation. -/
structure StashOutcome where
  exitOk : Bool
  output : String
deriving Repr, DecidableEq

/-- `gitStashAll` from bld.go: it fails exactly when the git command exits
nonzero; the command's output — including the "No local changes to save"
message git prints when there is nothing to stash — is only logged, never
inspected.  Returns the error message, `none` on success. -/
def gitStashAll (wp : String) (o : StashOutcome) : Option String :=
  if o.exitOk then none
  else some ("git stash failed in " ++ wp ++ ": " ++ o.output)

/-- Outcomes of the external processes one `makeTargetBuild` call runs,
indexed by the attempt number (1-based; the precheck has its own fields). -/
structure Env where
  precheckQueryOk : Bool
  precheckBuildOk : Bool
  agentOk : Nat → Bool
  queryOk : Nat → Bool
  buildOk : Nat → Bool
  stash : Nat → StashOutcome
  addOk : Nat → Bool
  statusOk : Nat → Bool
  statusClean : Nat → Bool
  commitOk : Nat → Bool

/-- One external invocation performed by `makeTargetBuild`, in order. -/
inductive Event where
  | ensureBuild : Event
  | precheckQuery : Event
  | precheckBuild : Event
  | agent : Nat → Event
  | query : Nat → Event
  | build : Nat → Event
  | stash : Nat → Event
  | stageAll : Nat → Event
  | status : Nat → Event
  | commit : Nat → String → Event
deriving Repr, DecidableEq

/-- The error value a `makeTargetBuild` run can return (bld.go returns a Go
`error`; the constructors record which return site produced it). -/
inductive Err where
  | agentFailed : Nat → Err
  | stashFailed : Nat → String → Err
  | addFailed : Nat → Err
  | statusFailed : Nat → Err
  | commitFailed : Nat → Err
  | exhausted : Err
deriving Repr, DecidableEq

/-- The commit message bld.go formats on the success path:
`fmt.Sprintf("aider: model %s target %s", llmModel, target)`. -/
def commitMsg (model target : String) : String :=
  "aider: model " ++ model ++ " target " ++ target

/-- Result of the attempt loop: the Go pair (success, error) plus the event
trace. -/
structure LoopOut where
  success : Bool
  err : Option Err
  events : List Event
deriving Repr, DecidableEq

/-- `maxAttempts` from `makeTargetBuild` (a fixed constant). -/
def maxAttempts : Nat := 5

/-- The attempt loop of `makeTargetBuild` (`for attempt := 1; attempt <=
maxAttempts; attempt++`): `fuel` counts the remaining attempts, `attempt` is
the 1-based number of the current one.  Each attempt runs aider (a process
failure returns the error immediately), then bazel query, then — only if the
query succeeded — bazel build; a failed validation stashes and retries; a
doubly-successful validation stages, checks status and commits unless the
tree is clean.  Exhausting the fuel returns the maximum-attempts error. -/
def runAttempts (wp model target : String) (env : Env) : Nat → Nat → LoopOut
  | 0, _ => ⟨false, some .exhausted, []⟩
  | fuel + 1, attempt =>
    if env.agentOk attempt = false then
      ⟨false, some (.agentFailed attempt), [.agent attempt]⟩
    else if env.queryOk attempt = false then
      match gitStashAll wp (env.stash attempt) with
      | some msg =>
          ⟨false, some (.stashFailed attempt msg),
            [.agent attempt, .query attempt, .stash attempt]⟩
      | none =>
          let r := runAttempts wp model target env fuel (attempt + 1)
          ⟨r.success, r.err,
            .agent attempt :: .query attempt :: .stash attempt :: r.events⟩
    else if env.buildOk attempt = false then
      match gitStashAll wp (env.stash attempt) with
      | some msg =>
          ⟨false, some (.stashFailed attempt msg),
            [.agent attempt, .query attempt, .build attempt, .stash attempt]⟩
      | none =>
          let r := runAttempts wp model target env fuel (attempt + 1)
          ⟨r.success, r.err,
            .agent attempt :: .query attempt :: .build attempt ::
              .stash attempt :: r.events⟩
    else if env.addOk attempt = false then
      ⟨false, some (.addFailed attempt),
        [.agent attempt, .query attempt, .build attempt, .stageAll attempt]⟩
    else if env.statusOk attempt = false then
      ⟨false, some (.statusFailed attempt),
        [.agent attempt, .query attempt, .build attempt, .stageAll attempt,
          .status attempt]⟩
    else if env.statusClean attempt = true then
      ⟨true, none,
        [.agent attempt, .query attempt, .build attempt, .stageAll attempt,
          .status attempt]⟩
    else if env.commitOk attempt = false then
      ⟨false, some (.commitFailed attempt),
        [.agent attempt, .query attempt, .build attempt, .stageAll attempt,
          .status attempt, .commit attempt (commitMsg model target)]⟩
    else
      ⟨true, none,
        [.agent attempt, .query attempt, .build attempt, .stageAll attempt,
          .status attempt, .commit attempt (commitMsg model target)]⟩

/-- Result of one `makeTargetBuild` call: the Go pair (success, error), the
event trace and the resulting file system. -/
structure MTBResult where
  success : Bool
  err : Option Err
  events : List Event
  fs : FS
deriving Repr, DecidableEq

/-- `makeTargetBuild` from bld.go: first ensure BUILD.bazel exists for the
target package; then the precheck (bazel query, and on success bazel build —
both succeeding returns success with no aider run); otherwise the bounded
attempt loop. -/
def makeTargetBuild (fs : FS) (wp model target : String) (env : Env) : MTBResult :=
  let fs1 := ensureBuildBazelExists fs wp target
  if env.precheckQueryOk = true then
    if env.precheckBuildOk = true then
      ⟨true, none, [.ensureBuild, .precheckQuery, .precheckBuild], fs1⟩
    else
      let r := runAttempts wp model target env maxAttempts 1
      ⟨r.success, r.err,
        .ensureBuild :: .precheckQuery :: .precheckBuild :: r.events, fs1⟩
  else
    let r := runAttempts wp model target env maxAttempts 1
    ⟨r.success, r.err, .ensureBuild :: .precheckQuery :: r.events, fs1⟩

/-- Count of aider invocations in an event trace. -/
def agentCount (evs : List Event) : Nat :=
  (evs.filter (fun e => match e with | .agent _ => true | _ => false)).length

/-- Per-model session outcomes: whether ensuring the branch and the worktree
succeed, and the per-target process outcomes for this model's worktree. -/
structure SessionEnv where
  branchEnsureOk : Bool
  worktreeEnsureOk : Bool
  targetEnv : String → Env

/-- The inner target loop of main: run `makeTargetBuild` on each target in
configuration order; Go breaks out of the loop on `err != nil || !success`,
so iteration continues exactly when the error is nil and success is true.
Returns the (target, result) pairs for the targets actually attempted. -/
def runTargets (wp model : String) (te : String → Env) (fs : FS) :
    List String → List (String × MTBResult)
  | [] => []
  | t :: rest =>
    let r := makeTargetBuild fs wp model t (te t)
    if r.err.isNone && r.success then (t, r) :: runTargets wp model te fs rest
    else [(t, r)]

/-- Outcome of the whole run: either every model was processed, or a
session-level failure (`log.Fatalf` on branch/worktree ensure) aborted the run
at some model, with the models already processed. -/
inductive RunResult where
  | ok : List (String × List (String × MTBResult)) → RunResult
  | sessionFatal : String → List (String × List (String × MTBResult)) → RunResult

/-- The model loop of main: for each model in configuration order, ensure its
branch and worktree (failure of either is `log.Fatalf`: the whole run aborts),
then run the target loop in the model's worktree with the model name prefixed
by "openrouter/"; the target loop's outcome never stops the model loop.  Each
model's worktree starts from the same file system `fs0`. -/
def runModels (homeDir branch : String) (ts : List String) (fs0 : FS)
    (se : String → SessionEnv) : List String → RunResult
  | [] => .ok []
  | m :: rest =>
    let e := se m
    if e.branchEnsureOk = false then .sessionFatal m []
    else if e.worktreeEnsureOk = false then .sessionFatal m []
    else
      let rs := runTargets (worktreeDir homeDir branch m) ("openrouter/" ++ m)
        e.targetEnv fs0 ts
      match runModels homeDir branch ts fs0 se rest with
      | .ok more => .ok ((m, rs) :: more)
      | .sessionFatal m' done => .sessionFatal m' ((m, rs) :: done)

/-- The models a run processed (reached the target loop or aborted at), in
order. -/
def processedModels : RunResult → List String
  | .ok rs => rs.map Prod.fst
  | .sessionFatal _ rs => rs.map Prod.fst

/-- Git and filesystem state the session-management functions act on: the
repository's branch names and the filesystem paths that exist (what `os.Stat`
sees). -/
structure GitState where
  branches : List String
  fsEntries : List String
deriving Repr, DecidableEq

/-- `gitBranchExists` from bld.go (`git show-ref --verify --quiet`): exit 0
means the branch exists, exit 1 that it does not; other failures of show-ref
are not modelled. -/
def gitBranchExists (st : GitState) (b : String) : Bool :=
  st.branches.contains b

/-- `createGitBranch` (`git branch name`): `createOk` stands for the external
command's success; on success the branch is added at the current HEAD. -/
def createGitBranch (st : GitState) (b : String) (createOk : Bool) :
    GitState × Option String :=
  if createOk then ({ st with branches := b :: st.branches }, none)
  else (st, some ("failed to create branch " ++ b))

/-- `createGitBranchIfNotExists` from bld.go: no-op when the branch exists,
otherwise create it. -/
def createGitBranchIfNotExists (st : GitState) (b : String) (createOk : Bool) :
    GitState × Option String :=
  if gitBranchExists st b then (st, none)
  else createGitBranch st b createOk

/-- `gitWorktreeExists` from bld.go: an `os.Stat` presence check on the
worktree path (stat errors other than not-exist are not modelled). -/
def gitWorktreeExists (st : GitState) (p : String) : Bool :=
  st.fsEntries.contains p

/-- `addGitWorktree` (`git worktree add path branch`): `addOk` stands for the
external command's success; on success the path comes to exist. -/
def addGitWorktree (st : GitState) (p : String) (addOk : Bool) :
    GitState × Option String :=
  if addOk then ({ st with fsEntries := p :: st.fsEntries }, none)
  else (st, some ("failed to add worktree at " ++ p))

/-- `createGitWorktreeIfNotExists` from bld.go: no-op when a filesystem entry
already exists at the worktree path, otherwise add the worktree. -/
def createGitWorktreeIfNotExists (st : GitState) (p _b : String) (addOk : Bool) :
    GitState × Option String :=
  if gitWorktreeExists st p then (st, none)
  else addGitWorktree st p addOk

/-- Replace the stash outcome of one attempt, keeping every other field. -/
def setStashAt (env : Env) (a : Nat) (o : StashOutcome) : Env :=
  { env with stash := fun n => if n = a then o else env.stash n }

/-- An environment in which every external process succeeds and the tree stays
clean: the precheck succeeds, so the loop returns before any attempt. -/
def envAllOk : Env :=
  { precheckQueryOk := true, precheckBuildOk := true,
    agentOk := fun _ => true, queryOk := fun _ => true, buildOk := fun _ => true,
    stash := fun _ => ⟨true, ""⟩, addOk := fun _ => true,
    statusOk := fun _ => true, statusClean := fun _ => true,
    commitOk := fun _ => true }

/-- An environment in which the precheck fails, aider always runs fine, every
build validation fails and every stash succeeds: the loop exhausts its
attempts. -/
def envNeverBuilds : Env :=
  { precheckQueryOk := false, precheckBuildOk := false,
    agentOk := fun _ => true, queryOk := fun _ => true, buildOk := fun _ => false,
    stash := fun _ => ⟨true, ""⟩, addOk := fun _ => true,
    statusOk := fun _ => true, statusClean := fun _ => false,
    commitOk := fun _ => true }

/-- An environment in which the precheck fails and the first attempt passes
both validations with a dirty tree, so a commit is made. -/
def envCommitDirty : Env :=
  { precheckQueryOk := false, precheckBuildOk := false,
    agentOk := fun _ => true, queryOk := fun _ => true, buildOk := fun _ => true,
    stash := fun _ => ⟨true, ""⟩, addOk := fun _ => true,
    statusOk := fun _ => true, statusClean := fun _ => false,
    commitOk := fun _ => true }

/-- An environment in which every query fails and every stash exits cleanly
reporting that there was nothing to stash. -/
def envQueryFails : Env :=
  { precheckQueryOk := false, precheckBuildOk := false,
    agentOk := fun _ => true, queryOk := fun _ => false, buildOk := fun _ => false,
    stash := fun _ => ⟨true, "No local changes to save"⟩, addOk := fun _ => true,
    statusOk := fun _ => true, statusClean := fun _ => false,
    commitOk := fun _ => true }

/-- An environment in which the precheck fails and the aider process itself
fails to run on the first attempt: a fatal error in the repair loop. -/
def envAgentDown : Env :=
  { precheckQueryOk := false, precheckBuildOk := false,
    agentOk := fun _ => false, queryOk := fun _ => false, buildOk := fun _ => false,
    stash := fun _ => ⟨true, ""⟩, addOk := fun _ => false,
    statusOk := fun _ => false, statusClean := fun _ => false,
    commitOk := fun _ => false }

/-- Sessions that always set up fine, with the agent-down environment on every
target. -/
def seAgentDown : String → SessionEnv :=
  fun _ => ⟨true, true, fun _ => envAgentDown⟩

/- ### Helper lemmas -/

/-- In the attempt loop, success and a nil error coincide at every return
site. -/
theorem runAttempts_success_iff (wp model target : String) (env : Env) :
    ∀ fuel attempt, ((runAttempts wp model target env fuel attempt).success = true ↔
      (runAttempts wp model target env fuel attempt).err = none) := by
  intro fuel
  induction fuel with
  | zero => intro attempt; simp [runAttempts]
  | succ n ih =>
    intro attempt
    simp only [runAttempts]
    cases hA : env.agentOk attempt with
    | false => simp [hA]
    | true =>
      cases hQ : env.queryOk attempt with
      | false =>
        cases hS : (env.stash attempt).exitOk with
        | false => simp [hA, hQ, gitStashAll, hS]
        | true => simp [hA, hQ, gitStashAll, hS, ih]
      | true =>
        cases hB : env.buildOk attempt with
        | false =>
          cases hS : (env.stash attempt).exitOk with
          | false => simp [hA, hQ, hB, gitStashAll, hS]
          | true => simp [hA, hQ, hB, gitStashAll, hS, ih]
        | true =>
          cases hAd : env.addOk attempt with
          | false => simp [hA, hQ, hB, hAd]
          | true =>
            cases hSt : env.statusOk attempt with
            | false => simp [hA, hQ, hB, hAd, hSt]
            | true =>
              cases hC : env.statusClean attempt with
              | true => simp [hA, hQ, hB, hAd, hSt, hC]
              | false =>
                cases hCm : env.commitOk attempt with
                | false => simp [hA, hQ, hB, hAd, hSt, hC, hCm]
                | true => simp [hA, hQ, hB, hAd, hSt, hC, hCm]

/-- When every attempt in range runs aider fine, fails a validation and
stashes fine, the loop burns all its fuel, runs aider once per unit of fuel
and ends with the maximum-attempts error. -/
theorem runAttempts_exhaust (wp model target : String) (env : Env) :
    ∀ fuel attempt,
      (∀ n, attempt ≤ n → n < attempt + fuel → env.agentOk n = true) →
      (∀ n, attempt ≤ n → n < attempt + fuel →
        env.queryOk n = false ∨ env.buildOk n = false) →
      (∀ n, attempt ≤ n → n < attempt + fuel → (env.stash n).exitOk = true) →
      (runAttempts wp model target env fuel attempt).err = some .exhausted ∧
      agentCount (runAttempts wp model target env fuel attempt).events = fuel := by
  intro fuel
  induction fuel with
  | zero => intro attempt _ _ _; simp [runAttempts, agentCount]
  | succ n ih =>
    intro attempt hagent hfail hstash
    have ha : env.agentOk attempt = true := hagent attempt le_rfl (by omega)
    have hs : (env.stash attempt).exitOk = true := hstash attempt le_rfl (by omega)
    have hrec := ih (attempt + 1)
      (fun n h1 h2 => hagent n (by omega) (by omega))
      (fun n h1 h2 => hfail n (by omega) (by omega))
      (fun n h1 h2 => hstash n (by omega) (by omega))
    rcases hfail attempt le_rfl (by omega) with hq | hb
    · simp only [runAttempts, ha, hq, gitStashAll, hs]
      simp only [agentCount] at hrec ⊢
      simp [hrec.1, hrec.2]
    · cases hQ : env.queryOk attempt with
      | false =>
        simp only [runAttempts, ha, hQ, gitStashAll, hs]
        simp only [agentCount] at hrec ⊢
        simp [hrec.1, hrec.2]
      | true =>
        simp only [runAttempts, ha, hQ, hb, gitStashAll, hs]
        simp only [agentCount] at hrec ⊢
        simp [hrec.1, hrec.2]

/- ### Claim theorems -/

/-- C9: `makeTargetBuild` returns success exactly when it returns no error —
it never returns success `false` with a nil error; in particular attempt
exhaustion comes back as an error, so the caller's error-free-failure branch
cannot trigger. -/
theorem makeTargetBuild_success_iff_no_error (fs : FS) (wp model target : String)
    (env : Env) :
    ((makeTargetBuild fs wp model target env).success = true ↔
      (makeTargetBuild fs wp model target env).err = none) := by
  cases hq : env.precheckQueryOk with
  | true =>
    cases hb : env.precheckBuildOk with
    | true => simp [makeTargetBuild, hq, hb]
    | false =>
      simp only [makeTargetBuild, hq, hb]
      simpa using runAttempts_success_iff wp model target env maxAttempts 1
  | false =>
    simp only [makeTargetBuild, hq]
    simpa using runAttempts_success_iff wp model target env maxAttempts 1

/-- C3: when both precheck validations succeed, `makeTargetBuild` returns
success with no error and never invokes the repair agent. -/
theorem makeTargetBuild_precheck_short_circuit (fs : FS) (wp model target : String)
    (env : Env) (hq : env.precheckQueryOk = true) (hb : env.precheckBuildOk = true) :
    (makeTargetBuild fs wp model target env).success = true ∧
    (makeTargetBuild fs wp model target env).err = none ∧
    agentCount (makeTargetBuild fs wp model target env).events = 0 := by
  simp [makeTargetBuild, hq, hb, agentCount]

/-- C3 witness: a concrete run in which the precheck succeeds. -/
theorem makeTargetBuild_precheck_short_circuit_witness :
    (makeTargetBuild [] "wt" "m" "//a:b" envAllOk).success = true ∧
    (makeTargetBuild [] "wt" "m" "//a:b" envAllOk).err = none ∧
    agentCount (makeTargetBuild [] "wt" "m" "//a:b" envAllOk).events = 0 :=
  makeTargetBuild_precheck_short_circuit [] "wt" "m" "//a:b" envAllOk rfl rfl

/-- C2: when the precheck does not fully succeed, no attempt's validation pair
ever succeeds, every aider invocation runs fine and every stash succeeds, the
repair agent is invoked exactly `maxAttempts` = 5 times and the loop ends with
the maximum-attempts (exhausted) error. -/
theorem makeTargetBuild_attempt_bound (fs : FS) (wp model target : String) (env : Env)
    (hpre : env.precheckQueryOk = false ∨ env.precheckBuildOk = false)
    (hagent : ∀ n, 1 ≤ n → n ≤ maxAttempts → env.agentOk n = true)
    (hfail : ∀ n, 1 ≤ n → n ≤ maxAttempts →
      env.queryOk n = false ∨ env.buildOk n = false)
    (hstash : ∀ n, 1 ≤ n → n ≤ maxAttempts → (env.stash n).exitOk = true) :
    agentCount (makeTargetBuild fs wp model target env).events = maxAttempts ∧
    (makeTargetBuild fs wp model target env).err = some .exhausted := by
  have h5 := runAttempts_exhaust wp model target env maxAttempts 1
    (fun n h1 h2 => hagent n h1 (by omega))
    (fun n h1 h2 => hfail n h1 (by omega))
    (fun n h1 h2 => hstash n h1 (by omega))
  cases hq : env.precheckQueryOk with
  | false =>
    simp only [makeTargetBuild, hq]
    simp only [agentCount] at h5 ⊢
    simp [h5.1, h5.2]
  | true =>
    have hb : env.precheckBuildOk = false := by
      rcases hpre with h | h
      · rw [hq] at h; exact absurd h (by simp)
      · exact h
    simp only [makeTargetBuild, hq, hb]
    simp only [agentCount] at h5 ⊢
    simp [h5.1, h5.2]

/-- C2 witness: a concrete run in which the precheck fails, aider always runs
and every build fails. -/
theorem makeTargetBuild_attempt_bound_witness :
    agentCount (makeTargetBuild [] "wt" "m" "//a:b" envNeverBuilds).events = maxAttempts ∧
    (makeTargetBuild [] "wt" "m" "//a:b" envNeverBuilds).err = some .exhausted :=
  makeTargetBuild_attempt_bound [] "wt" "m" "//a:b" envNeverBuilds
    (Or.inl rfl) (fun _ _ _ => rfl) (fun _ _ _ => Or.inr rfl) (fun _ _ _ => rfl)

theorem setStashAt_agentOk (env : Env) (a : Nat) (o : StashOutcome) :
    (setStashAt env a o).agentOk = env.agentOk := rfl

theorem setStashAt_queryOk (env : Env) (a : Nat) (o : StashOutcome) :
    (setStashAt env a o).queryOk = env.queryOk := rfl

theorem setStashAt_buildOk (env : Env) (a : Nat) (o : StashOutcome) :
    (setStashAt env a o).buildOk = env.buildOk := rfl

theorem setStashAt_addOk (env : Env) (a : Nat) (o : StashOutcome) :
    (setStashAt env a o).addOk = env.addOk := rfl

theorem setStashAt_statusOk (env : Env) (a : Nat) (o : StashOutcome) :
    (setStashAt env a o).statusOk = env.statusOk := rfl

theorem setStashAt_statusClean (env : Env) (a : Nat) (o : StashOutcome) :
    (setStashAt env a o).statusClean = env.statusClean := rfl

theorem setStashAt_commitOk (env : Env) (a : Nat) (o : StashOutcome) :
    (setStashAt env a o).commitOk = env.commitOk := rfl

theorem setStashAt_stash_self (env : Env) (a : Nat) (o : StashOutcome) :
    (setStashAt env a o).stash a = o := by simp [setStashAt]

theorem setStashAt_stash_ne (env : Env) (a b : Nat) (o : StashOutcome)
    (h : b ≠ a) : (setStashAt env a o).stash b = env.stash b := by
  simp [setStashAt, h]

/-- The attempt loop never reads a stash outcome of an attempt number below
the current one, so editing a past attempt's outcome changes nothing. -/
theorem runAttempts_setStashAt (wp model target : String) (env : Env) (a : Nat)
    (o : StashOutcome) :
    ∀ fuel b, a < b →
      runAttempts wp model target (setStashAt env a o) fuel b =
        runAttempts wp model target env fuel b := by
  intro fuel
  induction fuel with
  | zero => intro b _; simp [runAttempts]
  | succ n ih =>
    intro b hab
    have hne : b ≠ a := by omega
    simp only [runAttempts, setStashAt_agentOk, setStashAt_queryOk,
      setStashAt_buildOk, setStashAt_addOk, setStashAt_statusOk,
      setStashAt_statusClean, setStashAt_commitOk,
      setStashAt_stash_ne env a b o hne, ih (b + 1) (by omega)]

/-- C6: a rollback stash whose git command exits cleanly while printing the
nothing-to-stash message is a success of `gitStashAll`; the loop then proceeds
to the next attempt, and the result is the same as it would be with any other
stash output (such as the message for a non-empty stash). -/
theorem runAttempts_nothing_to_stash (wp model target s : String) (env : Env)
    (fuel a : Nat)
    (hA : env.agentOk a = true) (hQ : env.queryOk a = false)
    (hS : env.stash a = ⟨true, "No local changes to save"⟩) :
    gitStashAll wp (env.stash a) = none ∧
    runAttempts wp model target env (fuel + 1) a =
      ⟨(runAttempts wp model target env fuel (a + 1)).success,
       (runAttempts wp model target env fuel (a + 1)).err,
       .agent a :: .query a :: .stash a ::
         (runAttempts wp model target env fuel (a + 1)).events⟩ ∧
    runAttempts wp model target (setStashAt env a ⟨true, s⟩) (fuel + 1) a =
      runAttempts wp model target env (fuel + 1) a := by
  have h1 : gitStashAll wp (env.stash a) = none := by simp [gitStashAll, hS]
  have h2 : gitStashAll wp ((setStashAt env a ⟨true, s⟩).stash a) = none := by
    simp [setStashAt_stash_self, gitStashAll]
  refine ⟨h1, ?_, ?_⟩
  · simp only [runAttempts, hA, hQ, h1]
    simp
  · conv =>
      lhs
      rw [runAttempts]
    conv =>
      rhs
      rw [runAttempts]
    simp only [setStashAt_agentOk, setStashAt_queryOk, hA, hQ, h1, h2,
      runAttempts_setStashAt wp model target env a ⟨true, s⟩ fuel (a + 1)
        (by omega)]
    simp

/-- C4: in an attempt where aider runs and both validations succeed, the loop
stages all changes and queries the status; a clean status returns success with
no commit invocation, a dirty status commits with the message naming the model
and the target (the message's characters are the literal text around the model
and target strings). -/
theorem runAttempts_commit_policy (wp model target : String) (env : Env)
    (fuel k : Nat)
    (hA : env.agentOk k = true) (hQ : env.queryOk k = true)
    (hB : env.buildOk k = true) (hAd : env.addOk k = true)
    (hSt : env.statusOk k = true) :
    (Event.stageAll k ∈ (runAttempts wp model target env (fuel + 1) k).events ∧
     Event.status k ∈ (runAttempts wp model target env (fuel + 1) k).events) ∧
    (env.statusClean k = true →
      runAttempts wp model target env (fuel + 1) k =
        ⟨true, none, [.agent k, .query k, .build k, .stageAll k, .status k]⟩) ∧
    (env.statusClean k = false → env.commitOk k = true →
      runAttempts wp model target env (fuel + 1) k =
        ⟨true, none, [.agent k, .query k, .build k, .stageAll k, .status k,
          .commit k (commitMsg model target)]⟩) ∧
    (commitMsg model target).data =
      "aider: model ".data ++ model.data ++ " target ".data ++ target.data := by
  refine ⟨?_, ?_, ?_, ?_⟩
  · cases hC : env.statusClean k with
    | true => simp [runAttempts, hA, hQ, hB, hAd, hSt, hC]
    | false =>
      cases hCm : env.commitOk k with
      | true => simp [runAttempts, hA, hQ, hB, hAd, hSt, hC, hCm]
      | false => simp [runAttempts, hA, hQ, hB, hAd, hSt, hC, hCm]
  · intro hC; simp [runAttempts, hA, hQ, hB, hAd, hSt, hC]
  · intro hC hCm; simp [runAttempts, hA, hQ, hB, hAd, hSt, hC, hCm]
  · simp [commitMsg, String.data_append, List.append_assoc]

/-- C4 witness: a concrete attempt that validates with a dirty tree and
commits. -/
theorem runAttempts_commit_policy_witness :
    (Event.stageAll 1 ∈ (runAttempts "wt" "m" "//a:b" envCommitDirty (0 + 1) 1).events ∧
     Event.status 1 ∈ (runAttempts "wt" "m" "//a:b" envCommitDirty (0 + 1) 1).events) ∧
    (envCommitDirty.statusClean 1 = true →
      runAttempts "wt" "m" "//a:b" envCommitDirty (0 + 1) 1 =
        ⟨true, none, [.agent 1, .query 1, .build 1, .stageAll 1, .status 1]⟩) ∧
    (envCommitDirty.statusClean 1 = false → envCommitDirty.commitOk 1 = true →
      runAttempts "wt" "m" "//a:b" envCommitDirty (0 + 1) 1 =
        ⟨true, none, [.agent 1, .query 1, .build 1, .stageAll 1, .status 1,
          .commit 1 (commitMsg "m" "//a:b")]⟩) ∧
    (commitMsg "m" "//a:b").data =
      "aider: model ".data ++ "m".data ++ " target ".data ++ "//a:b".data :=
  runAttempts_commit_policy "wt" "m" "//a:b" envCommitDirty 0 1 rfl rfl rfl rfl rfl

/-- Whatever the precheck and attempts do, the file system `makeTargetBuild`
leaves behind is the one `ensureBuildBazelExists` produced. -/
theorem makeTargetBuild_fs_eq (fs : FS) (wp model target : String) (env : Env) :
    (makeTargetBuild fs wp model target env).fs =
      ensureBuildBazelExists fs wp target := by
  cases hq : env.precheckQueryOk with
  | true =>
    cases hb : env.precheckBuildOk with
    | true => simp [makeTargetBuild, hq, hb]
    | false => simp [makeTargetBuild, hq, hb]
  | false => simp [makeTargetBuild, hq]

/-- The first external step of `makeTargetBuild` is always the BUILD.bazel
ensure step. -/
theorem makeTargetBuild_head_event (fs : FS) (wp model target : String) (env : Env) :
    (makeTargetBuild fs wp model target env).events.head? =
      some Event.ensureBuild := by
  cases hq : env.precheckQueryOk with
  | true =>
    cases hb : env.precheckBuildOk with
    | true => simp [makeTargetBuild, hq, hb]
    | false => simp [makeTargetBuild, hq, hb]
  | false => simp [makeTargetBuild, hq]

/-- After the ensure step, a "//" target's package holds a BUILD.bazel file:
the one already there, or the placeholder when none existed. -/
theorem ensureBuildBazelExists_has_file (fs : FS) (wp t : String)
    (h : isSlashSlashTarget t = true) :
    List.lookup (buildBazelPath wp t) (ensureBuildBazelExists fs wp t) =
      some ((List.lookup (buildBazelPath wp t) fs).getD placeholderContent) := by
  simp only [ensureBuildBazelExists, h]
  cases hl : List.lookup (buildBazelPath wp t) fs with
  | some c => simp [hl]
  | none => simp [hl, List.lookup]

/-- C10: `makeTargetBuild` runs the BUILD.bazel ensure step first, before the
precheck and any aider invocation; for a target beginning with "//" the
package's BUILD.bazel then exists — holding the placeholder contents when the
file was missing — and for any other target the file system is untouched. -/
theorem makeTargetBuild_ensures_build_bazel (fs : FS) (wp model target : String)
    (env : Env) :
    (makeTargetBuild fs wp model target env).events.head? = some Event.ensureBuild ∧
    (makeTargetBuild fs wp model target env).fs =
      ensureBuildBazelExists fs wp target ∧
    (isSlashSlashTarget target = true →
      ∃ c, List.lookup (buildBazelPath wp target)
        (makeTargetBuild fs wp model target env).fs = some c) ∧
    (isSlashSlashTarget target = true →
      List.lookup (buildBazelPath wp target) fs = none →
      List.lookup (buildBazelPath wp target)
        (makeTargetBuild fs wp model target env).fs = some placeholderContent) ∧
    (isSlashSlashTarget target = false →
      (makeTargetBuild fs wp model target env).fs = fs) := by
  refine ⟨makeTargetBuild_head_event fs wp model target env,
    makeTargetBuild_fs_eq fs wp model target env, ?_, ?_, ?_⟩
  · intro h
    rw [makeTargetBuild_fs_eq, ensureBuildBazelExists_has_file fs wp target h]
    exact ⟨_, rfl⟩
  · intro h hnone
    rw [makeTargetBuild_fs_eq, ensureBuildBazelExists_has_file fs wp target h,
      hnone]
    rfl
  · intro h
    rw [makeTargetBuild_fs_eq]
    simp [ensureBuildBazelExists, h]

/-- Appending on the left of a string is cancellable. -/
theorem string_append_left_cancel (a : String) {s t : String}
    (h : a ++ s = a ++ t) : s = t := by
  apply String.ext
  have hd : a.data ++ s.data = a.data ++ t.data := by
    have hc := congrArg String.data h
    simpa [String.data_append] using hc
  exact List.append_cancel_left hd

/-- C7: the sanitized branch suffixes of the ten configured models are
pairwise distinct, and therefore, for any base branch and home directory, no
two models' sessions share a branch name or a worktree path. -/
theorem branchSuffixes_pairwise_distinct :
    List.Pairwise (fun a b => a ≠ b) (models.map branchSuffix) ∧
    (∀ branch, List.Pairwise (fun a b => a ≠ b)
      (models.map (fun m => modelBranch branch m))) ∧
    (∀ homeDir branch, List.Pairwise (fun a b => a ≠ b)
      (models.map (fun m => worktreeDir homeDir branch m))) := by
  have h1 : List.Pairwise (fun a b => a ≠ b) (models.map branchSuffix) := by
    decide
  have hbr : ∀ branch, List.Pairwise (fun a b => a ≠ b)
      (models.map (fun m => modelBranch branch m)) := by
    intro branch
    rw [List.pairwise_map]
    rw [List.pairwise_map] at h1
    refine h1.imp ?_
    intro a b hab h
    exact hab (string_append_left_cancel (branch ++ "-") h)
  refine ⟨h1, hbr, ?_⟩
  intro homeDir branch
  rw [List.pairwise_map]
  have h2 := hbr branch
  rw [List.pairwise_map] at h2
  refine h2.imp ?_
  intro a b hab h
  exact hab (string_append_left_cancel (homeDir ++ "/worktree/") h)

/-- C8: once `createGitBranchIfNotExists` (resp.
`createGitWorktreeIfNotExists`) has returned without error, a second call with
identical arguments performs no creation, leaves the state identical and
returns no error. -/
theorem ensure_branch_worktree_idempotent (st st' : GitState) (b p br : String)
    (ok1 ok2 ok3 ok4 : Bool)
    (h1 : (createGitBranchIfNotExists st b ok1).2 = none)
    (h2 : (createGitWorktreeIfNotExists st' p br ok3).2 = none) :
    createGitBranchIfNotExists (createGitBranchIfNotExists st b ok1).1 b ok2 =
      ((createGitBranchIfNotExists st b ok1).1, none) ∧
    createGitWorktreeIfNotExists (createGitWorktreeIfNotExists st' p br ok3).1
        p br ok4 =
      ((createGitWorktreeIfNotExists st' p br ok3).1, none) := by
  constructor
  · by_cases hE : gitBranchExists st b = true
    · simp [createGitBranchIfNotExists, hE]
    · cases ok1 with
      | false =>
        exfalso
        simp [createGitBranchIfNotExists, createGitBranch, hE] at h1
      | true =>
        have hE' : ¬ b ∈ st.branches := by simpa [gitBranchExists] using hE
        simp [createGitBranchIfNotExists, createGitBranch, gitBranchExists, hE']
  · by_cases hE : gitWorktreeExists st' p = true
    · simp [createGitWorktreeIfNotExists, hE]
    · cases ok3 with
      | false =>
        exfalso
        simp [createGitWorktreeIfNotExists, addGitWorktree, hE] at h2
      | true =>
        have hE' : ¬ p ∈ st'.fsEntries := by simpa [gitWorktreeExists] using hE
        simp [createGitWorktreeIfNotExists, addGitWorktree, gitWorktreeExists, hE']

/-- C8 witness: ensuring a fresh branch and a fresh worktree once, then again. -/
theorem ensure_branch_worktree_idempotent_witness :
    createGitBranchIfNotExists
        (createGitBranchIfNotExists ⟨[], []⟩ "main-x" true).1 "main-x" true =
      ((createGitBranchIfNotExists ⟨[], []⟩ "main-x" true).1, none) ∧
    createGitWorktreeIfNotExists
        (createGitWorktreeIfNotExists ⟨[], []⟩ "/w/main-x" "main-x" true).1
        "/w/main-x" "main-x" true =
      ((createGitWorktreeIfNotExists ⟨[], []⟩ "/w/main-x" "main-x" true).1, none) :=
  ensure_branch_worktree_idempotent ⟨[], []⟩ ⟨[], []⟩ "main-x" "/w/main-x"
    "main-x" true true true true rfl rfl

/-- The target loop walks over targets whose runs are error-free successes. -/
theorem runTargets_all_ok_append (wp model : String) (te : String → Env) (fs : FS) :
    ∀ (ts1 : List String),
      (∀ t ∈ ts1, ((makeTargetBuild fs wp model t (te t)).err.isNone &&
        (makeTargetBuild fs wp model t (te t)).success) = true) →
      ∀ rest, runTargets wp model te fs (ts1 ++ rest) =
        ts1.map (fun t => (t, makeTargetBuild fs wp model t (te t))) ++
          runTargets wp model te fs rest := by
  intro ts1
  induction ts1 with
  | nil => intro _ rest; simp
  | cons t ts ih =>
    intro h rest
    have ht := h t (by simp)
    simp only [List.cons_append, runTargets, ht, List.map_cons, if_true]
    rw [List.append_eq, ih (fun t' ht' => h t' (List.mem_cons_of_mem _ ht')) rest]

/-- The target loop stops at the first target whose run is not an error-free
success: later targets are not attempted. -/
theorem runTargets_stop_at (wp model : String) (te : String → Env) (fs : FS)
    (ts1 : List String) (t0 : String) (ts2 : List String)
    (hok : ∀ t ∈ ts1, ((makeTargetBuild fs wp model t (te t)).err.isNone &&
      (makeTargetBuild fs wp model t (te t)).success) = true)
    (hbad : ((makeTargetBuild fs wp model t0 (te t0)).err.isNone &&
      (makeTargetBuild fs wp model t0 (te t0)).success) = false) :
    runTargets wp model te fs (ts1 ++ t0 :: ts2) =
      ts1.map (fun t => (t, makeTargetBuild fs wp model t (te t))) ++
        [(t0, makeTargetBuild fs wp model t0 (te t0))] := by
  rw [runTargets_all_ok_append wp model te fs ts1 hok (t0 :: ts2)]
  congr 1
  simp [runTargets, hbad]

/-- A model whose session setup succeeds is processed, and the model loop then
continues with the remaining models whatever its target loop produced. -/
theorem runModels_cons_processed (homeDir branch : String) (ts : List String)
    (fs0 : FS) (se : String → SessionEnv) (mname : String) (rest : List String)
    (hb : (se mname).branchEnsureOk = true)
    (hw : (se mname).worktreeEnsureOk = true) :
    processedModels (runModels homeDir branch ts fs0 se (mname :: rest)) =
      mname :: processedModels (runModels homeDir branch ts fs0 se rest) := by
  simp only [runModels, hb, hw]
  cases hrec : runModels homeDir branch ts fs0 se rest with
  | ok more => simp [processedModels, hrec]
  | sessionFatal m' done => simp [processedModels, hrec]

/-- When every model's branch and worktree ensure succeed, the run never
aborts: whatever the target loops return, the outcome is `ok`. -/
theorem runModels_ok_of_sessions (homeDir branch : String) (ts : List String)
    (fs0 : FS) (se : String → SessionEnv)
    (h : ∀ m, (se m).branchEnsureOk = true ∧ (se m).worktreeEnsureOk = true) :
    ∀ ms, ∃ rs, runModels homeDir branch ts fs0 se ms = .ok rs := by
  intro ms
  induction ms with
  | nil => exact ⟨[], rfl⟩
  | cons m rest ih =>
    obtain ⟨rs, hrs⟩ := ih
    exact ⟨(m, runTargets (worktreeDir homeDir branch m) ("openrouter/" ++ m)
        (se m).targetEnv fs0 ts) :: rs,
      by simp [runModels, (h m).1, (h m).2, hrs]⟩

/-- C5: within a model, targets run in configuration order; at the first
target whose repair loop is not an error-free success, the remaining targets
for that model are not attempted, and the model loop still proceeds with the
next model in configuration order. -/
theorem orchestrator_target_short_circuit
    (homeDir branch mname : String) (te : String → Env) (fs0 : FS)
    (ts1 : List String) (t0 : String) (ts2 : List String)
    (se : String → SessionEnv) (rest : List String)
    (hok : ∀ t ∈ ts1,
      ((makeTargetBuild fs0 (worktreeDir homeDir branch mname)
          ("openrouter/" ++ mname) t (te t)).err.isNone &&
        (makeTargetBuild fs0 (worktreeDir homeDir branch mname)
          ("openrouter/" ++ mname) t (te t)).success) = true)
    (hbad : ((makeTargetBuild fs0 (worktreeDir homeDir branch mname)
          ("openrouter/" ++ mname) t0 (te t0)).err.isNone &&
        (makeTargetBuild fs0 (worktreeDir homeDir branch mname)
          ("openrouter/" ++ mname) t0 (te t0)).success) = false)
    (hse : se mname = ⟨true, true, te⟩) :
    runTargets (worktreeDir homeDir branch mname) ("openrouter/" ++ mname) te fs0
        (ts1 ++ t0 :: ts2) =
      ts1.map (fun t => (t, makeTargetBuild fs0 (worktreeDir homeDir branch mname)
        ("openrouter/" ++ mname) t (te t))) ++
        [(t0, makeTargetBuild fs0 (worktreeDir homeDir branch mname)
          ("openrouter/" ++ mname) t0 (te t0))] ∧
    processedModels (runModels homeDir branch (ts1 ++ t0 :: ts2) fs0 se
        (mname :: rest)) =
      mname :: processedModels (runModels homeDir branch (ts1 ++ t0 :: ts2) fs0 se
        rest) := by
  refine ⟨runTargets_stop_at _ _ te fs0 ts1 t0 ts2 hok hbad, ?_⟩
  exact runModels_cons_processed homeDir branch _ fs0 se mname rest
    (by rw [hse]) (by rw [hse])

/-- Targets where "tA" already builds in the precheck and everything else
never builds. -/
def teMixed : String → Env :=
  fun t => if t = "tA" then envAllOk else envNeverBuilds

/-- Sessions that always set up fine over `teMixed` targets. -/
def seMixed : String → SessionEnv := fun _ => ⟨true, true, teMixed⟩

/-- C5 witness: target "t0" fails after "tA" succeeds; "t2" is not attempted
and model "m2" is still processed. -/
theorem orchestrator_target_short_circuit_witness :
    processedModels (runModels "home" "main" (["tA"] ++ "t0" :: ["t2"]) []
        seMixed ("m1" :: ["m2"])) =
      "m1" :: processedModels (runModels "home" "main" (["tA"] ++ "t0" :: ["t2"])
        [] seMixed ["m2"]) :=
  (orchestrator_target_short_circuit "home" "main" "m1" teMixed [] ["tA"] "t0"
    ["t2"] seMixed ["m2"] (by decide) (by decide) rfl).2

/-- C1 counterexample: the aider process fails for model "m1" on its first
target — a fatal agent-invocation error — yet the run does not abort: model
"m2" is still processed afterwards. -/
theorem run_continues_after_fatal_error :
    (makeTargetBuild [] (worktreeDir "home" "main" "m1") ("openrouter/" ++ "m1")
        "//a:b" envAgentDown).err = some (Err.agentFailed 1) ∧
    processedModels (runModels "home" "main" ["//a:b"] [] seAgentDown
        ["m1", "m2"]) = ["m1", "m2"] := by
  constructor
  · decide
  · decide

/-- C1 (amended): when the repair loop for a (model, target) pair ends in a
fatal error — in particular an agent-process failure, or a staging / status /
commit failure after a successful build — the remaining targets for that model
are not attempted and processing proceeds with the next model; only
session-level (branch or worktree ensure) failures abort the run, so with all
sessions fine the run still completes with an `ok` outcome. -/
theorem fatal_error_short_circuits_model_only
    (homeDir branch mname : String) (te : String → Env) (fs0 : FS)
    (ts1 : List String) (t0 : String) (ts2 : List String)
    (se : String → SessionEnv) (rest : List String) (e : Err)
    (hok : ∀ t ∈ ts1,
      ((makeTargetBuild fs0 (worktreeDir homeDir branch mname)
          ("openrouter/" ++ mname) t (te t)).err.isNone &&
        (makeTargetBuild fs0 (worktreeDir homeDir branch mname)
          ("openrouter/" ++ mname) t (te t)).success) = true)
    (he : (makeTargetBuild fs0 (worktreeDir homeDir branch mname)
        ("openrouter/" ++ mname) t0 (te t0)).err = some e)
    (_hfatal : e ≠ Err.exhausted)
    (hse : se mname = ⟨true, true, te⟩)
    (hsess : ∀ m, (se m).branchEnsureOk = true ∧ (se m).worktreeEnsureOk = true) :
    runTargets (worktreeDir homeDir branch mname) ("openrouter/" ++ mname) te fs0
        (ts1 ++ t0 :: ts2) =
      ts1.map (fun t => (t, makeTargetBuild fs0 (worktreeDir homeDir branch mname)
        ("openrouter/" ++ mname) t (te t))) ++
        [(t0, makeTargetBuild fs0 (worktreeDir homeDir branch mname)
          ("openrouter/" ++ mname) t0 (te t0))] ∧
    processedModels (runModels homeDir branch (ts1 ++ t0 :: ts2) fs0 se
        (mname :: rest)) =
      mname :: processedModels (runModels homeDir branch (ts1 ++ t0 :: ts2) fs0 se
        rest) ∧
    ∃ rs, runModels homeDir branch (ts1 ++ t0 :: ts2) fs0 se (mname :: rest) =
      .ok rs := by
  have hbad : ((makeTargetBuild fs0 (worktreeDir homeDir branch mname)
      ("openrouter/" ++ mname) t0 (te t0)).err.isNone &&
    (makeTargetBuild fs0 (worktreeDir homeDir branch mname)
      ("openrouter/" ++ mname) t0 (te t0)).success) = false := by
    rw [he]
    simp
  refine ⟨runTargets_stop_at _ _ te fs0 ts1 t0 ts2 hok hbad,
    runModels_cons_processed homeDir branch _ fs0 se mname rest
      (by rw [hse]) (by rw [hse]),
    runModels_ok_of_sessions homeDir branch _ fs0 se hsess (mname :: rest)⟩

/-- C1 witness: an agent-process failure on "m1" leaves "m2" processed and the
run completing. -/
theorem fatal_error_short_circuits_model_only_witness :
    ∃ rs, runModels "home" "main" ([] ++ "//a:b" :: []) [] seAgentDown
      ("m1" :: ["m2"]) = .ok rs :=
  (fatal_error_short_circuits_model_only "home" "main" "m1"
    (fun _ => envAgentDown) [] [] "//a:b" [] seAgentDown ["m2"]
    (Err.agentFailed 1) (by decide) (by decide) (by decide) rfl
    (fun _ => ⟨rfl, rfl⟩)).2.2

/-- C6 witness: a concrete attempt whose query fails and whose stash reports
nothing to stash. -/
theorem runAttempts_nothing_to_stash_witness :
    gitStashAll "wt" (envQueryFails.stash 1) = none ∧
    runAttempts "wt" "m" "//a:b" envQueryFails (0 + 1) 1 =
      ⟨(runAttempts "wt" "m" "//a:b" envQueryFails 0 (1 + 1)).success,
       (runAttempts "wt" "m" "//a:b" envQueryFails 0 (1 + 1)).err,
       .agent 1 :: .query 1 :: .stash 1 ::
         (runAttempts "wt" "m" "//a:b" envQueryFails 0 (1 + 1)).events⟩ ∧
    runAttempts "wt" "m" "//a:b"
        (setStashAt envQueryFails 1 ⟨true, "Saved working directory state"⟩) (0 + 1) 1 =
      runAttempts "wt" "m" "//a:b" envQueryFails (0 + 1) 1 :=
  runAttempts_nothing_to_stash "wt" "m" "//a:b" "Saved working directory state"
    envQueryFails 0 1 rfl rfl rfl

end Bld
